import Mathlib

/-!
Verification of the image2md batch conversion pipeline.

The repository contains three Python scripts that convert every supported
image in a directory into a markdown description by calling a multimodal
inference backend:

* `img2md_g.py` — Gemini variant: enumerates via `glob`, runs a
  `ThreadPoolExecutor(max_workers=4)`, writes `stem_popis.md` into a
  `vystupy` output directory, and prints a run summary.
* `images.py` — Anthropic variant: enumerates via `Path.iterdir`,
  sequential loop, writes `stem.md` beside the source.
* `img2md_m.py` — Mistral variant: same pipeline shape as `images.py`.

The definitions below are a shallow embedding of the pipeline logic of
these scripts.  External effects (the network call, the ability of the
OS to complete a file write) are represented by explicit outcome values
supplied as parameters; the filesystem is an explicit association list
from path to content; Python exceptions are represented by outcome
constructors, so a function that catches every exception is total here.
Paths are modelled by their final component (the scripts only ever join
a constant directory in front).
-/

/-- Lowercase a string character by character (Python `str.lower` on the
ASCII extensions that occur here). -/
def lowerStr (s : String) : String :=
  String.mk (s.toList.map Char.toLower)

/-- Python `str.strip()`: drop whitespace from both ends. -/
def pyStrip (s : String) : String :=
  String.mk (((s.toList.dropWhile Char.isWhitespace).reverse.dropWhile Char.isWhitespace).reverse)

/-- Index of the last dot in a character list, if any (Python `str.rfind`). -/
def rfindDot (cs : List Char) : Option Nat :=
  match cs.reverse.findIdx? (fun c => c == ('.' : Char)) with
  | none => none
  | some j => some (cs.length - 1 - j)

/-- Python `pathlib.PurePath.suffix`: the extension from the last dot,
provided that dot is neither the first nor the last character of the name;
otherwise the empty string. -/
def pySuffix (name : String) : String :=
  let cs := name.toList
  match rfindDot cs with
  | none => ""
  | some i => if 0 < i ∧ i < cs.length - 1 then String.mk (cs.drop i) else ("")

/-- Python `pathlib.PurePath.stem`: the name without its `pySuffix`. -/
def pyStem (name : String) : String :=
  let cs := name.toList
  match rfindDot cs with
  | none => name
  | some i => if 0 < i ∧ i < cs.length - 1 then String.mk (cs.take i) else name

/-- Python `path.with_suffix(".md")`: replace the extension by `.md`. -/
def withSuffixMd (name : String) : String :=
  pyStem name ++ (".md")

/-- True when the first character of the name is a dot (glob hides such
entries from patterns that do not themselves start with a dot). -/
def strStartsWithDot (s : String) : Bool :=
  match s.toList with
  | [] => false
  | c :: _ => c == ('.' : Char)

/-- Case-sensitive suffix test on the underlying character lists. -/
def strEndsWith (s post : String) : Bool :=
  post.toList.isSuffixOf s.toList

/-- One directory entry as seen by enumeration: its name and whether it is
a regular file (`Path.is_file`). -/
structure DirEntry where
  name : String
  isRegularFile : Bool
deriving DecidableEq

/-- Filesystem model: association list from path to file content. -/
abbrev FS := List (String × String)

/-- Content of the file at a path, if present. -/
def getFile (fs : FS) (p : String) : Option String :=
  fs.lookup p

/-- Write (create or truncate-and-overwrite, as Python `open(p, "w")`) the
file at a path. -/
def setFile (fs : FS) (p c : String) : FS :=
  (p, c) :: fs.filter (fun kv => kv.1 != p)

/-- Outcome of one backend adapter invocation attempt inside a worker's
try block.  `raisedBefore` is an exception before the adapter was called
(file read, client construction); `raisedDuring` is an exception raised by
the adapter call itself (transport error, non-2xx, malformed body);
`returned v` is a call that returned value `v` to the caller. -/
inductive CallResult (α : Type) where
  | raisedBefore : CallResult α
  | raisedDuring : CallResult α
  | returned : α → CallResult α

/-- Number of adapter invocations the outcome accounts for: none if the
worker failed before calling, exactly one otherwise. -/
def adapterInvocations : CallResult α → Nat
  | CallResult.raisedBefore => 0
  | CallResult.raisedDuring => 1
  | CallResult.returned _ => 1

/-- The final run summary printed by `img2md_g.main` (lines 354-356):
total files found, successful conversions, and failed conversions. -/
structure RunSummary where
  totalCount : Nat
  successCount : Nat
  failureCount : Nat
deriving DecidableEq

namespace Img2mdG

/-- `SUPPORTED_FORMATS` from `img2md_g.py` line 17. -/
def SUPPORTED_FORMATS : List String :=
  [".jpg", ".jpeg", ".png", ".gif", ".webp"]

/-- Whether `glob.glob(f"*{ext}")` matches a directory entry name on a
POSIX (case-sensitive) filesystem: the name must not be hidden (leading
dot) and must end, case-sensitively, with `ext`. -/
def globMatch (ext name : String) : Bool :=
  !(strStartsWithDot name) && strEndsWith name ext

/-- Enumeration in `img2md_g.main` lines 323-325: for each supported
extension in order, extend the list with the glob matches.  No
regular-file check is performed. -/
def image_files (entries : List DirEntry) : List String :=
  SUPPORTED_FORMATS.foldl
    (fun acc ext => acc ++ (entries.filter (fun e => globMatch ext e.name)).map (fun e => e.name))
    []

/-- Mime-type lookup in `image_to_markdown`, lines 69-78: dictionary
access with default `image/jpeg` on the lowercased extension. -/
def mime_type (image_path : String) : String :=
  let ext := lowerStr (pySuffix image_path)
  if ext = (".jpg") then ("image/jpeg")
  else if ext = (".jpeg") then ("image/jpeg")
  else if ext = (".png") then ("image/png")
  else if ext = (".gif") then ("image/gif")
  else if ext = (".webp") then ("image/webp")
  else ("image/jpeg")

/-- Post-call logic of `image_to_markdown`, lines 261-271: any exception
yields `None`; a returned body that is `None`, empty, or whitespace-only
yields `None`; otherwise the text is returned.  (`response.text` is
optional in the SDK, hence `Option String` inside the call result.) -/
def image_to_markdown (call : CallResult (Option String)) : Option String :=
  match call with
  | CallResult.raisedBefore => none
  | CallResult.raisedDuring => none
  | CallResult.returned none => none
  | CallResult.returned (some t) =>
      if t = ("") ∨ pyStrip t = ("") then none else some t

/-- `save_markdown`, lines 274-283: write the content and return `true`;
if the OS write raises (modelled by the `writeOk` oracle) return `false`
leaving the filesystem unchanged. -/
def save_markdown (writeOk : Bool) (fs : FS) (markdown_content output_path : String) :
    FS × Bool :=
  if writeOk then (setFile fs output_path markdown_content, true) else (fs, false)

/-- Everything external that can vary for one task: the backend call's
outcome and whether the artifact write would succeed. -/
structure TaskOutcome where
  call : CallResult (Option String)
  writeOk : Bool

/-- Output path derivation in `process_image`, lines 291-292:
`os.path.join(output_dir, Path(image_path).stem + "_popis.md")`. -/
def output_path (output_dir image_path : String) : String :=
  output_dir ++ ("/") ++ pyStem image_path ++ ("_popis.md")

/-- `process_image`, lines 286-297: convert, and on a produced markdown
save it, returning the save result; on no markdown return `false`.  The
surrounding try/except turns any escaped exception into `false` as well
(already absorbed by the outcome model). -/
def process_image (o : TaskOutcome) (fs : FS) (image_path output_dir : String) :
    FS × Bool :=
  match image_to_markdown o.call with
  | some md => save_markdown o.writeOk fs md (output_path output_dir image_path)
  | none => (fs, false)

/-- The boolean a worker contributes for one task, as a function of that
task's own outcome only. -/
def taskResult (o : TaskOutcome) : Bool :=
  match image_to_markdown o.call with
  | some _ => o.writeOk
  | none => false

/-- State accumulated by one batch run: final filesystem, the per-task
result booleans in submission order, and total adapter invocations. -/
structure BatchState where
  fs : FS
  results : List Bool
  calls : Nat
deriving DecidableEq

/-- The batch body of `main`, lines 338-346: one `process_image` per
enumerated file (one future per file).  The model serializes the
filesystem effects; result collection order is handled separately, by
quantifying over permutations where a claim mentions completion order. -/
def runAll (outcomes : String → TaskOutcome) (output_dir : String) :
    List String → FS → BatchState
  | [], fs => { fs := fs, results := [], calls := 0 }
  | p :: ps, fs =>
    let r := process_image (outcomes p) fs p output_dir
    let rest := runAll outcomes output_dir ps r.1
    { fs := rest.fs
      results := r.2 :: rest.results
      calls := adapterInvocations (outcomes p).call + rest.calls }

/-- The printed summary, lines 354-356: total is the number of enumerated
files, successes the number of `true` results counted in completion
order, failures total minus successes. -/
def finalSummary (files : List String) (completion : List Bool) : RunSummary :=
  { totalCount := files.length
    successCount := completion.count true
    failureCount := files.length - completion.count true }

/-- What `main` reports: either the "no images found" message with an
early return (lines 327-330), or a finished run with its summary. -/
inductive RunReport where
  | noImages : RunReport
  | finished : RunSummary → RunReport
deriving DecidableEq

/-- `main`, lines 322-356, after model choice: enumerate, bail out when
nothing was found, otherwise run the batch and report the summary. -/
def mainRun (entries : List DirEntry) (outcomes : String → TaskOutcome)
    (output_dir : String) (fs0 : FS) : RunReport × BatchState :=
  let files := image_files entries
  if files.isEmpty then (RunReport.noImages, { fs := fs0, results := [], calls := 0 })
  else
    let b := runAll outcomes output_dir files fs0
    (RunReport.finished (finalSummary files b.results), b)

end Img2mdG

namespace ImagesPy

/-- Supported extension set in `process_current_directory`, line 272. -/
def supported_extensions : List String :=
  [".jpg", ".jpeg", ".png"]

/-- Enumeration in `process_current_directory`, lines 276-277: keep the
entries that are regular files whose lowercased extension is supported,
in listing order. -/
def image_files (entries : List DirEntry) : List String :=
  (entries.filter
    (fun e => e.isRegularFile && supported_extensions.contains (lowerStr (pySuffix e.name)))).map
    (fun e => e.name)

/-- `get_mime_type`, lines 204-220: dictionary access with default
`image/jpeg` on the lowercased extension. -/
def get_mime_type (file_path : String) : String :=
  let extension := lowerStr (pySuffix file_path)
  if extension = (".jpg") then ("image/jpeg")
  else if extension = (".jpeg") then ("image/jpeg")
  else if extension = (".png") then ("image/png")
  else ("image/jpeg")

/-- `process_image`, lines 222-266: any exception (encode, API call,
response shape) is caught and yields `None`; otherwise the first content
block's text is returned as-is, with no emptiness check. -/
def process_image (call : CallResult String) : Option String :=
  match call with
  | CallResult.raisedBefore => none
  | CallResult.raisedDuring => none
  | CallResult.returned t => some t

/-- Per-file continuation in `process_current_directory`, lines 289-298:
`if description:` is Python truthiness, so `None` and the empty string are
skipped; any other string is written to `image_file.with_suffix(".md")`;
a failing write (oracle `writeOk = false`) is logged and leaves the
filesystem unchanged. -/
def handle_result (writeOk : Bool) (fs : FS) (image_file : String)
    (description : Option String) : FS :=
  match description with
  | some d =>
      if d = ("") then fs
      else if writeOk then setFile fs (withSuffixMd image_file) d else fs
  | none => fs

/-- `process_current_directory`, lines 268-298: enumerate, print-and-return
when nothing was found, otherwise process each file in order.  Returns the
final filesystem and the number of adapter invocations made. -/
def process_current_directory (outcomes : String → CallResult String)
    (writeOk : String → Bool) (entries : List DirEntry) (fs0 : FS) : FS × Nat :=
  let files := image_files entries
  if files.isEmpty then (fs0, 0)
  else files.foldl
    (fun acc p =>
      (handle_result (writeOk p) acc.1 p (process_image (outcomes p)),
       acc.2 + adapterInvocations (outcomes p)))
    (fs0, 0)

end ImagesPy

namespace Img2mdM

/-- Supported extension set in `process_directory`, line 270. -/
def supported_extensions : List String :=
  [".jpg", ".jpeg", ".png"]

/-- Enumeration in `process_directory`, lines 272-273: keep the entries
that are regular files whose lowercased extension is supported. -/
def image_files (entries : List DirEntry) : List String :=
  (entries.filter
    (fun e => e.isRegularFile && supported_extensions.contains (lowerStr (pySuffix e.name)))).map
    (fun e => e.name)

/-- `get_mime_type`, lines 216-224: dictionary access with default
`image/jpeg` on the lowercased extension. -/
def get_mime_type (file_path : String) : String :=
  let extension := lowerStr (pySuffix file_path)
  if extension = (".jpg") then ("image/jpeg")
  else if extension = (".jpeg") then ("image/jpeg")
  else if extension = (".png") then ("image/png")
  else ("image/jpeg")

/-- `process_image`, lines 226-265: any exception — including the one
`raise_for_status` raises on a non-2xx transport status — is caught and
yields `None`; a 2xx response's parsed message content is returned as-is,
with no emptiness check. -/
def process_image (call : CallResult String) : Option String :=
  match call with
  | CallResult.raisedBefore => none
  | CallResult.raisedDuring => none
  | CallResult.returned t => some t

/-- Per-file continuation in `process_directory`, lines 285-294: identical
to the Anthropic variant — `if description:` skips `None` and `""`, any
other string is written to `image_file.with_suffix(".md")`. -/
def handle_result (writeOk : Bool) (fs : FS) (image_file : String)
    (description : Option String) : FS :=
  match description with
  | some d =>
      if d = ("") then fs
      else if writeOk then setFile fs (withSuffixMd image_file) d else fs
  | none => fs

/-- `process_directory`, lines 267-294: enumerate the given directory,
print-and-return when nothing was found, otherwise process each file in
order.  Returns the final filesystem and the adapter invocation count. -/
def process_directory (outcomes : String → CallResult String)
    (writeOk : String → Bool) (entries : List DirEntry) (fs0 : FS) : FS × Nat :=
  let files := image_files entries
  if files.isEmpty then (fs0, 0)
  else files.foldl
    (fun acc p =>
      (handle_result (writeOk p) acc.1 p (process_image (outcomes p)),
       acc.2 + adapterInvocations (outcomes p)))
    (fs0, 0)

end Img2mdM

/-- Modelled from the spec: the bounded worker-pool scheduling of
`ThreadPoolExecutor(max_workers=4)` (`img2md_g.main` line 338) is library
behavior whose implementation is not under `src/`; per spec §4.4 and §8 it
is a fixed-size pool where a pending task may start only while fewer than
`limit` workers are running.  A pool state counts pending, running and
completed tasks; each running worker has exactly one adapter call in
flight (§4.3 step 3: the worker invokes the adapter exactly once). -/
structure PoolState where
  pending : Nat
  running : Nat
  done : Nat
deriving DecidableEq

/-- `max_workers=4` from `img2md_g.main` line 338. -/
def max_workers : Nat := 4

/-- Modelled from the spec: one scheduling step of the bounded pool —
start a pending task when a worker slot is free, or retire a running
task. -/
inductive PoolStep (limit : Nat) : PoolState → PoolState → Prop where
  | start (s : PoolState) (hp : 0 < s.pending) (hr : s.running < limit) :
      PoolStep limit s { pending := s.pending - 1, running := s.running + 1, done := s.done }
  | finish (s : PoolState) (hr : 0 < s.running) :
      PoolStep limit s { pending := s.pending, running := s.running - 1, done := s.done + 1 }

/-- Modelled from the spec: the states a run of the pool can pass
through, starting from an initial state. -/
inductive PoolReach (limit : Nat) (init : PoolState) : PoolState → Prop where
  | refl : PoolReach limit init init
  | tail {s t : PoolState} :
      PoolReach limit init s → PoolStep limit s t → PoolReach limit init t

/-- Writing a file makes its content the one just written. -/
theorem getFile_setFile (fs : FS) (p c : String) :
    getFile (setFile fs p c) p = some c := by
  simp [getFile, setFile, List.lookup]

/-- The boolean returned by the Gemini worker is `taskResult` of its own
outcome — in particular it does not depend on the filesystem or on any
other task. -/
theorem Img2mdG.process_image_snd (o : Img2mdG.TaskOutcome) (fs : FS)
    (p d : String) : (Img2mdG.process_image o fs p d).2 = Img2mdG.taskResult o := by
  unfold Img2mdG.process_image Img2mdG.taskResult Img2mdG.save_markdown
  cases h : Img2mdG.image_to_markdown o.call <;> cases hw : o.writeOk <;> simp

/-- A task that does not succeed leaves the filesystem untouched. -/
theorem Img2mdG.process_image_fst_of_fail (o : Img2mdG.TaskOutcome) (fs : FS)
    (p d : String) (h : Img2mdG.taskResult o = false) :
    (Img2mdG.process_image o fs p d).1 = fs := by
  unfold Img2mdG.taskResult at h
  unfold Img2mdG.process_image Img2mdG.save_markdown
  cases hmd : Img2mdG.image_to_markdown o.call with
  | none => simp
  | some md =>
      rw [hmd] at h
      have h2 : o.writeOk = false := h
      simp [h2]

/-- The batch produces exactly the per-task results, in submission
order: one boolean per enumerated file, each a function of that file's
own outcome. -/
theorem Img2mdG.runAll_results_eq_map (outcomes : String → Img2mdG.TaskOutcome)
    (d : String) (ts : List String) (fs : FS) :
    (Img2mdG.runAll outcomes d ts fs).results
      = ts.map (fun p => Img2mdG.taskResult (outcomes p)) := by
  induction ts generalizing fs with
  | nil => rfl
  | cons p ps ih => simp [Img2mdG.runAll, Img2mdG.process_image_snd, ih]

/-- Counting `true` over a boolean image of a list is the length of the
filtered list. -/
theorem count_true_map_eq_filter_length (f : String → Bool) (ts : List String) :
    (ts.map f).count true = (ts.filter f).length := by
  induction ts with
  | nil => rfl
  | cons p ps ih =>
      cases h : f p <;> simp [List.count_cons, List.filter_cons, h, ih]

/-- Membership in a fold that appends per-extension match lists. -/
theorem mem_foldl_append (g : String → List String) (fmts : List String)
    (acc : List String) (x : String) :
    x ∈ fmts.foldl (fun a ext => a ++ g ext) acc ↔ x ∈ acc ∨ ∃ ext ∈ fmts, x ∈ g ext := by
  induction fmts generalizing acc with
  | nil => simp
  | cons f fs ih =>
      simp only [List.foldl_cons, ih, List.mem_append, List.mem_cons]
      constructor
      · rintro (⟨h | h⟩ | ⟨ext, hext, hx⟩)
        · exact Or.inl h
        · exact Or.inr ⟨f, Or.inl rfl, h⟩
        · exact Or.inr ⟨ext, Or.inr hext, hx⟩
      · rintro (h | ⟨ext, hext | hext, hx⟩)
        · exact Or.inl (Or.inl h)
        · exact Or.inl (Or.inr (hext ▸ hx))
        · exact Or.inr ⟨ext, hext, hx⟩

/-- Characterization of the Gemini enumeration: a name is produced
exactly when some supported extension's glob pattern matches some
directory entry with that name. -/
theorem Img2mdG.mem_image_files (entries : List DirEntry) (name : String) :
    name ∈ Img2mdG.image_files entries
      ↔ ∃ ext ∈ Img2mdG.SUPPORTED_FORMATS, ∃ e ∈ entries,
          e.name = name ∧ Img2mdG.globMatch ext e.name = true := by
  unfold Img2mdG.image_files
  rw [mem_foldl_append]
  simp [List.mem_map, List.mem_filter]
  constructor
  · rintro ⟨ext, hext, e, ⟨he, hg⟩, hname⟩
    exact ⟨ext, hext, e, he, hname, hg⟩
  · rintro ⟨ext, hext, e, he, hname, hg⟩
    exact ⟨ext, hext, e, ⟨he, hg⟩, hname⟩

/-- C1: for every set of enumerated image tasks and every order in which
the individual conversions complete, the printed run summary satisfies
`successCount + failureCount = totalCount`, `totalCount` equals the number
of enumerated files, and the printed failure count is exactly the number
of enumerated files minus the number of successful conversions. -/
theorem C1_run_summary_counts
    (outcomes : String → Img2mdG.TaskOutcome) (output_dir : String)
    (files : List String) (fs0 : FS) (completion : List Bool)
    (hperm : completion.Perm (Img2mdG.runAll outcomes output_dir files fs0).results) :
    (Img2mdG.finalSummary files completion).successCount
        + (Img2mdG.finalSummary files completion).failureCount
      = (Img2mdG.finalSummary files completion).totalCount
    ∧ (Img2mdG.finalSummary files completion).totalCount = files.length
    ∧ (Img2mdG.finalSummary files completion).failureCount
      = files.length - (Img2mdG.finalSummary files completion).successCount := by
  have hres := Img2mdG.runAll_results_eq_map outcomes output_dir files fs0
  have hlen : completion.length = files.length := by
    rw [hperm.length_eq, hres, List.length_map]
  have hcount : completion.count true ≤ files.length := by
    calc completion.count true ≤ completion.length := List.count_le_length _ _
    _ = files.length := hlen
  refine ⟨?_, rfl, rfl⟩
  simp only [Img2mdG.finalSummary]
  omega

/-- Witness for C1 at a concrete two-task batch whose completion order is
the reverse of submission order. -/
theorem C1_witness :
    (Img2mdG.finalSummary [("a.jpg"), ("b.jpg")] [false, true]).successCount
        + (Img2mdG.finalSummary [("a.jpg"), ("b.jpg")] [false, true]).failureCount
      = (Img2mdG.finalSummary [("a.jpg"), ("b.jpg")] [false, true]).totalCount :=
  (C1_run_summary_counts
    (fun p => { call := if p = ("a.jpg") then CallResult.returned (some ("ok"))
                        else CallResult.raisedDuring
                writeOk := true })
    ("vystupy") [("a.jpg"), ("b.jpg")] [] [false, true] (by decide)).1

/-- C3 counterexample: in the Gemini variant a regular file named
`photo.JPG` is not enumerated even though `photo.jpg` is, because the glob
patterns are built from lowercase extensions and match case-sensitively
on a POSIX filesystem — refuting the claim that extension comparison is
case-insensitive in every variant. -/
theorem C3_counterexample :
    Img2mdG.image_files [{ name := ("photo.JPG"), isRegularFile := true }] = []
    ∧ Img2mdG.image_files [{ name := ("photo.jpg"), isRegularFile := true }]
        = [("photo.jpg")] := by
  constructor <;> rfl

/-- C3 (amended): the Anthropic and Mistral variants' enumerations keep
exactly the regular entries whose extension compared case-insensitively
is in the supported set (so there `photo.JPG` is enumerated just like
`photo.jpg`), while the Gemini variant keeps exactly the non-hidden
entries — regular file or not — whose name ends case-sensitively with one
of the lowercase supported extensions, so there `photo.JPG` is not
enumerated. -/
theorem C3_enumeration_amended (entries : List DirEntry) (name : String) :
    (name ∈ ImagesPy.image_files entries
      ↔ ∃ e ∈ entries, e.name = name ∧ e.isRegularFile = true
          ∧ lowerStr (pySuffix name) ∈ ImagesPy.supported_extensions)
    ∧ (name ∈ Img2mdM.image_files entries
      ↔ ∃ e ∈ entries, e.name = name ∧ e.isRegularFile = true
          ∧ lowerStr (pySuffix name) ∈ Img2mdM.supported_extensions)
    ∧ (name ∈ Img2mdG.image_files entries
      ↔ ∃ e ∈ entries, e.name = name
          ∧ ∃ ext ∈ Img2mdG.SUPPORTED_FORMATS,
              strStartsWithDot name = false ∧ strEndsWith name ext = true) := by
  refine ⟨?_, ?_, ?_⟩
  · unfold ImagesPy.image_files
    simp only [List.mem_map, List.mem_filter, Bool.and_eq_true]
    constructor
    · rintro ⟨e, ⟨he, hreg, hsupp⟩, hname⟩
      refine ⟨e, he, hname, hreg, ?_⟩
      rw [← hname]
      simpa [List.contains] using List.elem_iff.mp hsupp
    · rintro ⟨e, he, hname, hreg, hsupp⟩
      refine ⟨e, ⟨he, hreg, ?_⟩, hname⟩
      rw [hname]
      simpa [List.contains] using List.elem_iff.mpr hsupp
  · unfold Img2mdM.image_files
    simp only [List.mem_map, List.mem_filter, Bool.and_eq_true]
    constructor
    · rintro ⟨e, ⟨he, hreg, hsupp⟩, hname⟩
      refine ⟨e, he, hname, hreg, ?_⟩
      rw [← hname]
      simpa [List.contains] using List.elem_iff.mp hsupp
    · rintro ⟨e, he, hname, hreg, hsupp⟩
      refine ⟨e, ⟨he, hreg, ?_⟩, hname⟩
      rw [hname]
      simpa [List.contains] using List.elem_iff.mpr hsupp
  · rw [Img2mdG.mem_image_files]
    constructor
    · rintro ⟨ext, hext, e, he, hname, hg⟩
      rw [hname] at hg
      unfold Img2mdG.globMatch at hg
      rw [Bool.and_eq_true, Bool.not_eq_true'] at hg
      exact ⟨e, he, hname, ext, hext, hg⟩
    · rintro ⟨e, he, hname, ext, hext, hdot, hend⟩
      refine ⟨ext, hext, e, he, hname, ?_⟩
      rw [hname]
      unfold Img2mdG.globMatch
      rw [Bool.and_eq_true, Bool.not_eq_true']
      exact ⟨hdot, hend⟩

/-- Witness for C3 (amended): `photo.JPG` is enumerated by both the
Anthropic and the Mistral variant via the characterizations. -/
theorem C3_witness :
    ("photo.JPG")
      ∈ ImagesPy.image_files [{ name := ("photo.JPG"), isRegularFile := true }]
    ∧ ("photo.JPG")
      ∈ Img2mdM.image_files [{ name := ("photo.JPG"), isRegularFile := true }] :=
  ⟨((C3_enumeration_amended [{ name := ("photo.JPG"), isRegularFile := true }]
      ("photo.JPG")).1).mpr
    ⟨{ name := ("photo.JPG"), isRegularFile := true }, by decide, rfl, rfl, by decide⟩,
   ((C3_enumeration_amended [{ name := ("photo.JPG"), isRegularFile := true }]
      ("photo.JPG")).2.1).mpr
    ⟨{ name := ("photo.JPG"), isRegularFile := true }, by decide, rfl, rfl, by decide⟩⟩

/-- C4: in every variant, mime-type derivation is a total function of the
lowercased extension through a fixed lookup table — `.jpg` and `.jpeg`
yield `image/jpeg`, `.png` yields `image/png`, any extension outside the
variant's table (including no extension) falls back to `image/jpeg`, and
two paths with the same lowercased extension always derive the same
mime type. -/
theorem C4_mime_type_lookup (p q : String) :
    ((lowerStr (pySuffix p) = (".jpg") ∨ lowerStr (pySuffix p) = (".jpeg")) →
        ImagesPy.get_mime_type p = ("image/jpeg")
        ∧ Img2mdM.get_mime_type p = ("image/jpeg")
        ∧ Img2mdG.mime_type p = ("image/jpeg"))
    ∧ (lowerStr (pySuffix p) = (".png") →
        ImagesPy.get_mime_type p = ("image/png")
        ∧ Img2mdM.get_mime_type p = ("image/png")
        ∧ Img2mdG.mime_type p = ("image/png"))
    ∧ (lowerStr (pySuffix p) ∉ ([".jpg", ".jpeg", ".png"] : List String) →
        ImagesPy.get_mime_type p = ("image/jpeg")
        ∧ Img2mdM.get_mime_type p = ("image/jpeg"))
    ∧ (lowerStr (pySuffix p) ∉ ([".jpg", ".jpeg", ".png", ".gif", ".webp"] : List String) →
        Img2mdG.mime_type p = ("image/jpeg"))
    ∧ (lowerStr (pySuffix p) = lowerStr (pySuffix q) →
        ImagesPy.get_mime_type p = ImagesPy.get_mime_type q
        ∧ Img2mdM.get_mime_type p = Img2mdM.get_mime_type q
        ∧ Img2mdG.mime_type p = Img2mdG.mime_type q) := by
  refine ⟨?_, ?_, ?_, ?_, ?_⟩
  · rintro (h | h) <;>
      simp [ImagesPy.get_mime_type, Img2mdM.get_mime_type, Img2mdG.mime_type, h]
  · intro h
    simp [ImagesPy.get_mime_type, Img2mdM.get_mime_type, Img2mdG.mime_type, h]
  · intro h
    simp only [List.mem_cons, List.mem_singleton, not_or] at h
    obtain ⟨h1, h2, h3⟩ := h
    constructor <;>
      simp [ImagesPy.get_mime_type, Img2mdM.get_mime_type, h1, h2, h3]
  · intro h
    simp only [List.mem_cons, List.mem_singleton, not_or] at h
    obtain ⟨h1, h2, h3, h4, h5⟩ := h
    simp [Img2mdG.mime_type, h1, h2, h3, h4, h5]
  · intro h
    refine ⟨?_, ?_, ?_⟩ <;>
      simp only [ImagesPy.get_mime_type, Img2mdM.get_mime_type, Img2mdG.mime_type, h]

/-- C2 counterexample: in the Mistral variant, a transport-successful call
whose body is the whitespace-only string of one space is treated as a
success — the markdown artifact `img.md` is written with that whitespace
as its entire content — refuting the claim that a whitespace-only body is
always classified as a failure with no artifact written. -/
theorem C2_counterexample :
    getFile
      (Img2mdM.process_directory (fun _ => CallResult.returned (" "))
        (fun _ => true) [{ name := ("img.jpg"), isRegularFile := true }] []).1
      ("img.md")
      = some (" ") := by
  rfl

/-- C2 (amended): in the Gemini variant an empty or whitespace-only
response body is classified as a failure — the worker yields no markdown,
reports `false`, and leaves the filesystem unchanged.  In the Mistral and
Anthropic variants an empty body produces no artifact (the result is
falsy in the caller's check), but a whitespace-only body is treated as a
success and is written verbatim as the artifact. -/
theorem C2_empty_response_amended :
    (∀ t : String, pyStrip t = ("") →
        Img2mdG.image_to_markdown (CallResult.returned (some t)) = none)
    ∧ (∀ (o : Img2mdG.TaskOutcome) (t : String) (fs : FS) (p d : String),
        o.call = CallResult.returned (some t) → pyStrip t = ("") →
        Img2mdG.taskResult o = false ∧ (Img2mdG.process_image o fs p d).1 = fs)
    ∧ (∀ (w : Bool) (fs : FS) (p : String),
        Img2mdM.handle_result w fs p (Img2mdM.process_image (CallResult.returned (""))) = fs
        ∧ ImagesPy.handle_result w fs p
            (ImagesPy.process_image (CallResult.returned (""))) = fs)
    ∧ (∀ (fs : FS) (p t : String), t ≠ ("") →
        Img2mdM.handle_result true fs p (Img2mdM.process_image (CallResult.returned t))
          = setFile fs (withSuffixMd p) t
        ∧ ImagesPy.handle_result true fs p
            (ImagesPy.process_image (CallResult.returned t))
          = setFile fs (withSuffixMd p) t) := by
  refine ⟨?_, ?_, ?_, ?_⟩
  · intro t ht
    simp [Img2mdG.image_to_markdown, ht]
  · intro o t fs p d hcall ht
    have hfail : Img2mdG.taskResult o = false := by
      unfold Img2mdG.taskResult
      rw [hcall]
      simp [Img2mdG.image_to_markdown, ht]
    exact ⟨hfail, Img2mdG.process_image_fst_of_fail o fs p d hfail⟩
  · intro w fs p
    constructor <;> simp [Img2mdM.handle_result, Img2mdM.process_image,
      ImagesPy.handle_result, ImagesPy.process_image]
  · intro fs p t ht
    constructor <;> simp [Img2mdM.handle_result, Img2mdM.process_image,
      ImagesPy.handle_result, ImagesPy.process_image, ht]

/-- Witness for C2 (amended) at the whitespace-only body of one space in
the Gemini variant and at a nonempty body in the Mistral variant. -/
theorem C2_witness :
    Img2mdG.image_to_markdown (CallResult.returned (some (" "))) = none
    ∧ Img2mdM.handle_result true [] ("img.jpg")
        (Img2mdM.process_image (CallResult.returned ("x")))
      = setFile [] (withSuffixMd ("img.jpg")) ("x") :=
  ⟨C2_empty_response_amended.1 (" ") (by decide),
   (C2_empty_response_amended.2.2.2 [] ("img.jpg") ("x") (by decide)).1⟩

/-- C5: a failure of one task — a file read error, a backend or transport
error, or any exception inside the worker — is absorbed at the worker
boundary into that item's own `false`/`None` result; the batch still
produces exactly one result per task, and each task's result is a
function of that task's own outcome alone, so every other task runs to
completion with its own independent result. -/
theorem C5_worker_isolation
    (outcomes : String → Img2mdG.TaskOutcome) (d : String) (ts : List String)
    (fs : FS) :
    ((Img2mdG.runAll outcomes d ts fs).results.length = ts.length)
    ∧ ((Img2mdG.runAll outcomes d ts fs).results
        = ts.map (fun p => Img2mdG.taskResult (outcomes p)))
    ∧ (∀ o : Img2mdG.TaskOutcome,
        o.call = CallResult.raisedBefore ∨ o.call = CallResult.raisedDuring →
        Img2mdG.taskResult o = false)
    ∧ (∀ r : CallResult String,
        r = CallResult.raisedBefore ∨ r = CallResult.raisedDuring →
        ImagesPy.process_image r = none ∧ Img2mdM.process_image r = none) := by
  refine ⟨?_, Img2mdG.runAll_results_eq_map outcomes d ts fs, ?_, ?_⟩
  · rw [Img2mdG.runAll_results_eq_map, List.length_map]
  · rintro o (h | h) <;>
      simp [Img2mdG.taskResult, Img2mdG.image_to_markdown, h]
  · rintro r (h | h) <;>
      simp [ImagesPy.process_image, Img2mdM.process_image, h]

/-- Witness for C5 at the spec's three-task example: task 2's adapter
call raises a transport error, tasks 1 and 3 still complete with their
own results, giving results `[true, false, true]`. -/
theorem C5_witness :
    (Img2mdG.runAll
      (fun p => { call := if p = ("b.jpg") then CallResult.raisedDuring
                          else CallResult.returned (some ("ok"))
                  writeOk := true })
      ("vystupy") [("a.jpg"), ("b.jpg"), ("c.jpg")] []).results
      = [true, false, true] := by
  rw [(C5_worker_isolation
    (fun p => { call := if p = ("b.jpg") then CallResult.raisedDuring
                        else CallResult.returned (some ("ok"))
                writeOk := true })
    ("vystupy") [("a.jpg"), ("b.jpg"), ("c.jpg")] []).2.1]
  decide

/-- C6: a directory with no entry matching any supported extension — in
particular an empty directory — yields an empty enumeration in every
variant; the Gemini run reports the no-images message with zero adapter
calls, zero results, and an unchanged filesystem, and the Anthropic run
returns with zero adapter calls and an unchanged filesystem; both are
total functions, so no exception escapes. -/
theorem C6_zero_tasks_noop (entries : List DirEntry)
    (hg : ∀ e ∈ entries, ∀ ext ∈ Img2mdG.SUPPORTED_FORMATS,
      strEndsWith e.name ext = false)
    (ha : ∀ e ∈ entries,
      lowerStr (pySuffix e.name) ∉ ImagesPy.supported_extensions)
    (outcomesG : String → Img2mdG.TaskOutcome) (output_dir : String) (fs0 : FS)
    (outcomesA : String → CallResult String) (writeOk : String → Bool) :
    Img2mdG.image_files entries = []
    ∧ Img2mdG.mainRun entries outcomesG output_dir fs0
        = (Img2mdG.RunReport.noImages, { fs := fs0, results := [], calls := 0 })
    ∧ ImagesPy.image_files entries = []
    ∧ ImagesPy.process_current_directory outcomesA writeOk entries fs0 = (fs0, 0) := by
  have hgempty : Img2mdG.image_files entries = [] := by
    rcases h : Img2mdG.image_files entries with _ | ⟨n, rest⟩
    · rfl
    · exfalso
      have hn : n ∈ Img2mdG.image_files entries := by rw [h]; exact List.mem_cons_self n rest
      rw [Img2mdG.mem_image_files] at hn
      obtain ⟨ext, hext, e, he, _, hmatch⟩ := hn
      unfold Img2mdG.globMatch at hmatch
      rw [Bool.and_eq_true] at hmatch
      rw [hg e he ext hext] at hmatch
      exact Bool.false_ne_true hmatch.2
  have haempty : ImagesPy.image_files entries = [] := by
    unfold ImagesPy.image_files
    rw [List.map_eq_nil_iff]
    rw [List.filter_eq_nil_iff]
    intro e he
    rw [Bool.and_eq_true]
    rintro ⟨-, hc⟩
    exact ha e he (by simpa [List.contains] using List.elem_iff.mp hc)
  refine ⟨hgempty, ?_, haempty, ?_⟩
  · unfold Img2mdG.mainRun
    rw [hgempty]
    rfl
  · unfold ImagesPy.process_current_directory
    rw [haempty]
    rfl

/-- Witness for C6 on a directory holding one text file and one
subdirectory with an image-like name in none of the supported sets. -/
theorem C6_witness :
    Img2mdG.mainRun
      [{ name := ("notes.txt"), isRegularFile := true },
       { name := ("scan.tiff"), isRegularFile := false }]
      (fun _ => { call := CallResult.raisedDuring, writeOk := true })
      ("vystupy") []
      = (Img2mdG.RunReport.noImages, { fs := [], results := [], calls := 0 }) :=
  (C6_zero_tasks_noop
    [{ name := ("notes.txt"), isRegularFile := true },
     { name := ("scan.tiff"), isRegularFile := false }]
    (by decide) (by decide)
    (fun _ => { call := CallResult.raisedDuring, writeOk := true })
    ("vystupy") [] (fun _ => CallResult.raisedDuring) (fun _ => true)).2.1

/-- C7: the artifact writer derives the output name deterministically from
the source stem — `stem.md` beside the source in the Anthropic/Mistral
variants, `stem_popis.md` under the output directory in the Gemini
variant, collision-free for distinct stems — writes the markdown text as
the complete file content, unconditionally overwrites an existing file of
the derived name, and writing the same pair twice succeeds both times and
leaves the file content equal to the markdown text. -/
theorem C7_artifact_writer (fs : FS) (path content old : String) :
    (getFile (setFile fs path content) path = some content)
    ∧ (getFile fs path = some old →
        getFile (setFile fs path content) path = some content)
    ∧ ((Img2mdG.save_markdown true fs content path).2 = true
       ∧ (Img2mdG.save_markdown true (Img2mdG.save_markdown true fs content path).1
            content path).2 = true
       ∧ getFile (Img2mdG.save_markdown true
            (Img2mdG.save_markdown true fs content path).1 content path).1 path
          = some content)
    ∧ (withSuffixMd path = pyStem path ++ (".md"))
    ∧ (∀ outDir : String,
        Img2mdG.output_path outDir path
          = outDir ++ ("/") ++ pyStem path ++ ("_popis.md"))
    ∧ (∀ q : String, pyStem path ≠ pyStem q → withSuffixMd path ≠ withSuffixMd q) := by
  refine ⟨getFile_setFile fs path content,
    fun _ => getFile_setFile fs path content, ⟨?_, ?_, ?_⟩, rfl, fun _ => rfl, ?_⟩
  · simp [Img2mdG.save_markdown]
  · simp [Img2mdG.save_markdown]
  · simp only [Img2mdG.save_markdown, if_pos rfl]
    exact getFile_setFile _ path content
  · intro q hne heq
    apply hne
    unfold withSuffixMd at heq
    have hdata : (pyStem path).data ++ (".md").data = (pyStem q).data ++ (".md").data := by
      have := congrArg String.data heq
      simpa [String.data_append] using this
    have hd := List.append_cancel_right hdata
    cases hps : pyStem path with
    | mk l1 =>
        cases hqs : pyStem q with
        | mk l2 =>
            rw [hps, hqs] at hd
            exact congrArg String.mk hd

/-- Witness for C7: writing the artifact for `img.jpg` twice with the
same markdown succeeds both times and leaves exactly that content. -/
theorem C7_witness :
    getFile (Img2mdG.save_markdown true
      (Img2mdG.save_markdown true [(("img.md"), ("old"))] ("# hello") ("img.md")).1
      ("# hello") ("img.md")).1 ("img.md") = some ("# hello") :=
  (C7_artifact_writer [(("img.md"), ("old"))] ("img.md") ("# hello") ("old")).2.2.1.2.2

/-- C8: the scheduler submits exactly one worker per enumerated task —
the result list has one entry per task, the entry at position `i` being
the result of task `i` — and the collection loop consumes each result
exactly once, so for every completion order the multiset of consumed
results is exactly the multiset of produced results; no task is processed
twice. -/
theorem C8_exactly_once
    (outcomes : String → Img2mdG.TaskOutcome) (d : String) (ts : List String)
    (fs : FS) (completion : List Bool)
    (hperm : completion.Perm (Img2mdG.runAll outcomes d ts fs).results) :
    ((Img2mdG.runAll outcomes d ts fs).results
        = ts.map (fun p => Img2mdG.taskResult (outcomes p)))
    ∧ (Img2mdG.runAll outcomes d ts fs).results.length = ts.length
    ∧ completion.length = ts.length
    ∧ (∀ b : Bool, completion.count b = (Img2mdG.runAll outcomes d ts fs).results.count b) := by
  have hres := Img2mdG.runAll_results_eq_map outcomes d ts fs
  have hlen : (Img2mdG.runAll outcomes d ts fs).results.length = ts.length := by
    rw [hres, List.length_map]
  exact ⟨hres, hlen, by rw [hperm.length_eq, hlen],
    fun b => hperm.count_eq b⟩

/-- Witness for C8 at a concrete two-task batch consumed in reverse
completion order. -/
theorem C8_witness :
    [false, true].count true
      = (Img2mdG.runAll
          (fun p => { call := if p = ("a.jpg") then CallResult.returned (some ("ok"))
                              else CallResult.raisedDuring
                      writeOk := true })
          ("vystupy") [("a.jpg"), ("b.jpg")] []).results.count true :=
  (C8_exactly_once
    (fun p => { call := if p = ("a.jpg") then CallResult.returned (some ("ok"))
                        else CallResult.raisedDuring
                writeOk := true })
    ("vystupy") [("a.jpg"), ("b.jpg")] [] [false, true] (by decide)).2.2.2 true

/-- C9: in the bounded-pool model of `ThreadPoolExecutor(max_workers=4)`,
every state reachable from an all-pending initial state keeps the number
of running workers — hence the number of adapter calls in flight, one per
running worker — at or below the cap, which is 4. -/
theorem C9_pool_concurrency_cap (n : Nat) (s : PoolState)
    (h : PoolReach max_workers { pending := n, running := 0, done := 0 } s) :
    s.running ≤ max_workers ∧ max_workers = 4 := by
  refine ⟨?_, rfl⟩
  induction h with
  | refl => exact Nat.zero_le _
  | tail hreach hstep ih =>
      cases hstep with
      | start hp hr => exact hr
      | finish hr => exact Nat.le_trans (Nat.sub_le _ _) ih

/-- Witness for C9: a state of the 10-task run with 4 running workers is
reachable and within the cap. -/
theorem C9_witness :
    ({ pending := 6, running := 4, done := 0 } : PoolState).running ≤ max_workers :=
  (C9_pool_concurrency_cap 10 { pending := 6, running := 4, done := 0 }
    (PoolReach.tail
      (PoolReach.tail
        (PoolReach.tail
          (PoolReach.tail PoolReach.refl
            (PoolStep.start { pending := 10, running := 0, done := 0 }
              (by decide) (by decide)))
          (PoolStep.start { pending := 9, running := 1, done := 0 }
            (by decide) (by decide)))
        (PoolStep.start { pending := 8, running := 2, done := 0 }
          (by decide) (by decide)))
      (PoolStep.start { pending := 7, running := 3, done := 0 }
        (by decide) (by decide)))).1

/-- C10: in the Gemini variant a task is counted successful exactly when
the backend produced usable markdown and the artifact write succeeded; a
task whose backend call succeeds with nonblank text but whose write fails
is counted failed; a successful task's artifact is present at its derived
output path, a failed task writes nothing; hence the batch success count
equals the number of tasks whose artifact write was performed and
succeeded in this run. -/
theorem C10_success_counts_artifacts
    (o : Img2mdG.TaskOutcome) (fs : FS) (p d : String)
    (outcomes : String → Img2mdG.TaskOutcome) (ts : List String) (fs0 : FS) :
    (Img2mdG.taskResult o = true
      ↔ (Img2mdG.image_to_markdown o.call).isSome = true ∧ o.writeOk = true)
    ∧ (∀ t : String, o.call = CallResult.returned (some t) → ¬(t = ("") ∨ pyStrip t = ("")) →
        o.writeOk = false → Img2mdG.taskResult o = false)
    ∧ (∀ md : String, Img2mdG.image_to_markdown o.call = some md → o.writeOk = true →
        getFile (Img2mdG.process_image o fs p d).1 (Img2mdG.output_path d p) = some md)
    ∧ (Img2mdG.taskResult o = false → (Img2mdG.process_image o fs p d).1 = fs)
    ∧ ((Img2mdG.runAll outcomes d ts fs0).results.count true
        = (ts.filter (fun q => Img2mdG.taskResult (outcomes q))).length) := by
  refine ⟨?_, ?_, ?_, Img2mdG.process_image_fst_of_fail o fs p d, ?_⟩
  · unfold Img2mdG.taskResult
    cases h : Img2mdG.image_to_markdown o.call <;> simp
  · intro t hcall hblank hw
    unfold Img2mdG.taskResult
    rw [hcall]
    simp [Img2mdG.image_to_markdown, hblank, hw]
  · intro md hmd hw
    unfold Img2mdG.process_image
    rw [hmd]
    simp only [Img2mdG.save_markdown, hw, if_pos rfl]
    exact getFile_setFile _ _ _
  · rw [Img2mdG.runAll_results_eq_map, count_true_map_eq_filter_length]

/-- Witness for C10: a task whose backend returns nonblank markdown but
whose write fails is counted as a failure. -/
theorem C10_witness :
    Img2mdG.taskResult
      { call := CallResult.returned (some ("# ok")), writeOk := false } = false :=
  (C10_success_counts_artifacts
    { call := CallResult.returned (some ("# ok")), writeOk := false }
    [] ("img.jpg") ("vystupy") (fun _ => { call := CallResult.raisedBefore, writeOk := true })
    [] []).2.1 ("# ok") rfl (by decide) rfl

/-- Witness for C4 at the spec's own examples: `photo.JPG`, `chart.PNG`,
`logo.unknownext`, and an extensionless name. -/
theorem C4_witness :
    ImagesPy.get_mime_type ("photo.JPG") = ("image/jpeg")
    ∧ Img2mdG.mime_type ("chart.PNG") = ("image/png")
    ∧ ImagesPy.get_mime_type ("logo.unknownext") = ("image/jpeg")
    ∧ Img2mdG.mime_type ("noext") = ("image/jpeg") :=
  ⟨((C4_mime_type_lookup ("photo.JPG") ("photo.JPG")).1 (Or.inl (by decide))).1,
   ((C4_mime_type_lookup ("chart.PNG") ("chart.PNG")).2.1 (by decide)).2.2,
   ((C4_mime_type_lookup ("logo.unknownext") ("logo.unknownext")).2.2.1 (by decide)).1,
   (C4_mime_type_lookup ("noext") ("noext")).2.2.2.1 (by decide)⟩

